import Mathlib

/-!
# YASK `StencilContext::newGrid` (src/kernel/lib/new_grid.cpp)

A shallow embedding of the run-time grid factory and theorems about it.

* Dimension labels are `String`s, a label sequence (`GridDimNames`) is a `List String`.
* `exit_yask(1)` ends the call: it is modelled by the `Except.error` result, which carries the
  rule that was violated together with the data printed in the message.
* The owning context is explicit state of an arbitrary type `σ`; its two collaborators
  `addGrid` and `update_grids` are parameters.
* `MAX_DIMS` is a parameter.
* Positions and counts are natural numbers: the source uses `int`, and every value it
  computes is at most `dims.size()`.
-/

deriving instance DecidableEq for Except

namespace yask

/-! ## Data model -/

/-- Modelled from the spec: the tuple type of `_vec_fold_pts` (its declaration is not part of
the source file). The spec calls it an ordered mapping from dimension labels to fold factors,
so the labels of the entries are pairwise different. -/
structure IdxTuple where
  entries : List (String × Nat)
  nodup_names : (entries.map Prod.fst).Nodup

namespace IdxTuple

/-- The labels of the tuple, in order. -/
def names (t : IdxTuple) : List String := t.entries.map Prod.fst

/-- Modelled from the spec: `lookup(dim)` yields the fold factor stored for `dim`, or nothing
when `dim` is not a label of the tuple (a null pointer in the source). -/
def lookup (t : IdxTuple) (dim : String) : Option Nat :=
  (t.entries.find? (fun e => decide (e.1 = dim))).map Prod.snd

/-- Modelled from the spec: `getNumDims()` is the total size of the tuple. -/
def getNumDims (t : IdxTuple) : Nat := t.entries.length

end IdxTuple

/-- The dimension-set configuration `_dims` read by `newGrid`. -/
structure Dims where
  _step_dim : String
  _vec_fold_pts : IdxTuple
  _inner_dim : String

/-- The three ways `newGrid` ends in `exit_yask(1)`, with the data of the message. -/
inductive GridError where
  | DuplicateDimension (name dim : String)
  | MisplacedStepDimension (name dim : String)
  | UnsupportedDimensionCount (name : String) (ndims MAX_DIMS : Nat)
  deriving DecidableEq, Repr

/-- The class instantiated for a grid: `YkVecGrid` when `folded`, `YkElemGrid` otherwise, over
the layout for `ndims` dimensions, with the step-index template flag `use_step`. -/
structure GridType where
  folded : Bool
  ndims : Nat
  use_step : Bool
  deriving DecidableEq, Repr

/-- `YkElemGrid<Layout_0d, false>`. -/
def GridType.elem0d : GridType := ⟨false, 0, false⟩

/-- What `make_shared<...>(_dims, name, dims, &_ostr)` builds: the chosen class with the grid
name and the label sequence. -/
structure YkGrid where
  gtype : GridType
  name : String
  dims : List String
  deriving DecidableEq, Repr

/-! ## The dimension check (lines 36-70) -/

/-- The local variables of the checking loop. -/
structure CheckState where
  step_posn : Nat
  inner_posn : Nat
  num_vec_dims : Nat
  seenDims : List String
  deriving DecidableEq, Repr

/-- The values of the locals before the loop. -/
def CheckState.init : CheckState := ⟨0, 0, 0, []⟩

/-- One iteration of the loop body, for index `i` and label `d = dims[i]`. -/
def checkDim (_dims : Dims) (name : String) (i : Nat) (d : String) (st : CheckState) :
    Except GridError CheckState :=
  if d ∈ st.seenDims then
    .error (.DuplicateDimension name d)
  else if d = _dims._step_dim then
    if i > 0 then
      .error (.MisplacedStepDimension name d)
    else
      .ok { st with step_posn := i + 1 }
  else if (_dims._vec_fold_pts.lookup d).isSome then
    if d = _dims._inner_dim then
      .ok { st with num_vec_dims := st.num_vec_dims + 1, inner_posn := i + 1 }
    else
      .ok { st with num_vec_dims := st.num_vec_dims + 1 }
  else
    .ok st

/-- The loop `for (i = ...; i < ndims; i++)` over the labels still to visit. -/
def checkLoop (_dims : Dims) (name : String) : List String → Nat → CheckState →
    Except GridError CheckState
  | [], _, st => .ok st
  | d :: rest, i, st =>
    match checkDim _dims name i d st with
    | .error e => .error e
    | .ok st1 => checkLoop _dims name rest (i + 1) st1

/-- The whole check of a label sequence. -/
def checkDims (_dims : Dims) (name : String) (dims : List String) :
    Except GridError CheckState :=
  checkLoop _dims name dims 0 CheckState.init

/-- The fold decision of lines 72-75. -/
def do_fold (_dims : Dims) (st : CheckState) : Bool :=
  decide (st.num_vec_dims ≥ 1) && decide (st.num_vec_dims = _dims._vec_fold_pts.getNumDims)

/-! ## Layout dispatch (lines 77-93) -/

/-- Modelled from the spec: the generated file `yask_grid_code.hpp`, which is included for
every case other than `ndims == 0` and is not part of the source. The spec describes a lookup
with one entry for each dimension count up to `MAX_DIMS` and each combination of step
dimension present and folding active, and no entry beyond `MAX_DIMS`. -/
def yask_grid_code (MAX_DIMS : Nat) (name : String) (dims : List String)
    (ndims step_posn : Nat) (fold : Bool) : Option YkGrid :=
  if ndims ≤ MAX_DIMS then
    some ⟨⟨fold, ndims, decide (step_posn ≠ 0)⟩, name, dims⟩
  else
    none

/-- The selection of `gp` in lines 80-86. -/
def selectGrid (MAX_DIMS : Nat) (_dims : Dims) (name : String) (dims : List String)
    (st : CheckState) : Option YkGrid :=
  if dims.length = 0 then
    some ⟨GridType.elem0d, name, dims⟩
  else
    yask_grid_code MAX_DIMS name dims dims.length st.step_posn (do_fold _dims st)

/-! ## The factory -/

/-- The two collaborators of the owning context, over a context state `σ`. -/
structure Context (σ : Type) where
  addGrid : YkGrid → Bool → σ → σ
  update_grids : σ → σ

/-- `StencilContext::newGrid`: the result and the context state in which the call ends. -/
def newGrid {σ : Type} (ctx : Context σ) (_dims : Dims) (MAX_DIMS : Nat) (name : String)
    (dims : List String) (is_visible : Bool) (s : σ) : Except GridError YkGrid × σ :=
  match checkDims _dims name dims with
  | .error e => (.error e, s)
  | .ok st =>
    match selectGrid MAX_DIMS _dims name dims st with
    | none => (.error (.UnsupportedDimensionCount name dims.length MAX_DIMS), s)
    | some gp =>
      let s1 := if is_visible then ctx.addGrid gp false s else s
      let s2 := if is_visible then ctx.update_grids s1 else s1
      (.ok gp, s2)

/-- A call of a collaborator, as recorded by `traceContext`. -/
inductive Call where
  | addGrid (gp : YkGrid) (is_output : Bool)
  | update_grids
  deriving DecidableEq, Repr

/-- A context whose state is the list of collaborator calls made so far. -/
def traceContext : Context (List Call) where
  addGrid := fun gp is_output log => log ++ [Call.addGrid gp is_output]
  update_grids := fun log => log ++ [Call.update_grids]

/-- The configuration of the spec's example: step `t`, fold `x:4, y:2`, inner `x`. -/
def exampleDims : Dims := ⟨"t", ⟨[("x", 4), ("y", 2)], by decide⟩, "x"⟩

/-- A configuration with an empty fold tuple. -/
def noFoldDims : Dims := ⟨"t", ⟨[], by decide⟩, "x"⟩

/-- The result of `newGrid` without the context: check, then selection. -/
def gridResult (_dims : Dims) (MAX_DIMS : Nat) (name : String) (dims : List String) :
    Except GridError YkGrid :=
  match checkDims _dims name dims with
  | .error e => .error e
  | .ok st =>
    match selectGrid MAX_DIMS _dims name dims st with
    | none => .error (.UnsupportedDimensionCount name dims.length MAX_DIMS)
    | some gp => .ok gp

/-- The labels counted by `num_vec_dims`: not the step label, and found in the fold tuple. -/
def isVecDim (_dims : Dims) (d : String) : Bool :=
  decide (d ≠ _dims._step_dim) && (_dims._vec_fold_pts.lookup d).isSome

/-! ## Lemmas on the fold tuple -/

theorem IdxTuple.lookup_isSome_iff (t : IdxTuple) (d : String) :
    (t.lookup d).isSome = true ↔ d ∈ t.names := by
  unfold IdxTuple.lookup IdxTuple.names
  rw [Option.isSome_map', List.find?_isSome, List.mem_map]
  constructor
  · rintro ⟨e, he, hd⟩
    exact ⟨e, he, by simpa using hd⟩
  · rintro ⟨e, he, hd⟩
    exact ⟨e, he, by simpa using hd⟩

theorem IdxTuple.getNumDims_eq (t : IdxTuple) : t.getNumDims = t.names.length := by
  simp [IdxTuple.getNumDims, IdxTuple.names]

/-- Two duplicate-free lists have as many members of the first in the second as of the second
in the first. -/
theorem length_filter_mem_comm {l₁ l₂ : List String} (h₁ : l₁.Nodup) (h₂ : l₂.Nodup) :
    (l₁.filter (fun a => decide (a ∈ l₂))).length
      = (l₂.filter (fun a => decide (a ∈ l₁))).length := by
  apply List.Perm.length_eq
  rw [List.perm_ext_iff_of_nodup (h₁.filter _) (h₂.filter _)]
  intro a
  simp only [List.mem_filter, decide_eq_true_eq]
  tauto

/-! ## Lemmas on the checking loop -/

/-- The loop body when nothing has been recorded as seen. -/
theorem checkDim_seen_nil (_dims : Dims) (name : String) (i : Nat) (d : String)
    (sp ip nv : Nat) :
    checkDim _dims name i d ⟨sp, ip, nv, []⟩ =
      if d = _dims._step_dim then
        (if i > 0 then .error (.MisplacedStepDimension name d) else .ok ⟨i + 1, ip, nv, []⟩)
      else if (_dims._vec_fold_pts.lookup d).isSome then
        (if d = _dims._inner_dim then .ok ⟨sp, i + 1, nv + 1, []⟩ else .ok ⟨sp, ip, nv + 1, []⟩)
      else .ok ⟨sp, ip, nv, []⟩ := by
  simp [checkDim]

/-- From a positive index on, the loop stops at the first step label it meets. -/
theorem checkLoop_pos_error (_dims : Dims) (name : String) (ds : List String) :
    ∀ (i sp ip nv : Nat), 0 < i → _dims._step_dim ∈ ds →
      checkLoop _dims name ds i ⟨sp, ip, nv, []⟩
        = .error (.MisplacedStepDimension name _dims._step_dim) := by
  induction ds with
  | nil => intro i sp ip nv _ h; simp at h
  | cons d rest ih =>
    intro i sp ip nv hi hmem
    rw [checkLoop, checkDim_seen_nil]
    by_cases hd : d = _dims._step_dim
    · simp [hd, hi]
    · have hrest : _dims._step_dim ∈ rest := by
        rcases List.mem_cons.mp hmem with h | h
        · exact absurd h.symm hd
        · exact h
      rw [if_neg hd]
      split_ifs
      · exact ih (i + 1) _ _ _ (Nat.succ_pos i) hrest
      · exact ih (i + 1) _ _ _ (Nat.succ_pos i) hrest
      · exact ih (i + 1) _ _ _ (Nat.succ_pos i) hrest

/-- From a positive index on, the loop runs to the end when it meets no step label; it then
leaves `step_posn` and `seenDims` as they were and has counted the fold labels. -/
theorem checkLoop_pos_ok (_dims : Dims) (name : String) (ds : List String) :
    ∀ (i sp ip nv : Nat), 0 < i → _dims._step_dim ∉ ds →
      ∃ ip1, checkLoop _dims name ds i ⟨sp, ip, nv, []⟩
        = .ok ⟨sp, ip1, nv + ds.countP (isVecDim _dims), []⟩ := by
  induction ds with
  | nil => intro i sp ip nv _ _; exact ⟨ip, by simp [checkLoop]⟩
  | cons d rest ih =>
    intro i sp ip nv hi hmem
    have hd : d ≠ _dims._step_dim := fun h => hmem (by simp [h])
    have hrest : _dims._step_dim ∉ rest := fun h => hmem (List.mem_cons_of_mem _ h)
    rw [checkLoop, checkDim_seen_nil, if_neg hd]
    by_cases hv : (_dims._vec_fold_pts.lookup d).isSome = true
    · have hvd : isVecDim _dims d = true := by simp [isVecDim, hd, hv]
      rw [if_pos hv, List.countP_cons_of_pos _ _ hvd]
      split_ifs
      · obtain ⟨ip1, h1⟩ := ih (i + 1) sp (i + 1) (nv + 1) (Nat.succ_pos i) hrest
        exact ⟨ip1, by show checkLoop _ _ _ _ _ = _; rw [h1]; congr 2; omega⟩
      · obtain ⟨ip1, h1⟩ := ih (i + 1) sp ip (nv + 1) (Nat.succ_pos i) hrest
        exact ⟨ip1, by show checkLoop _ _ _ _ _ = _; rw [h1]; congr 2; omega⟩
    · have hvd : ¬ isVecDim _dims d = true := by simp [isVecDim, hd, hv]
      rw [if_neg hv, List.countP_cons_of_neg _ _ hvd]
      exact ih (i + 1) sp ip nv (Nat.succ_pos i) hrest

/-- A label sits at some index beyond the first exactly when it is in the tail. -/
theorem mem_tail_iff_getElem? (a : String) (dims : List String) :
    a ∈ dims.tail ↔ ∃ i, 0 < i ∧ dims[i]? = some a := by
  rw [List.mem_iff_getElem?]
  constructor
  · rintro ⟨n, hn⟩
    exact ⟨n + 1, Nat.succ_pos n, by simpa using hn⟩
  · rintro ⟨i, hi, h⟩
    obtain ⟨n, rfl⟩ : ∃ n, i = n + 1 := ⟨i - 1, by omega⟩
    exact ⟨n, by simpa using h⟩

/-- The check stops with the step-placement error when the step label is beyond index 0. -/
theorem checkDims_misplaced (_dims : Dims) (name : String) (dims : List String)
    (h : _dims._step_dim ∈ dims.tail) :
    checkDims _dims name dims = .error (.MisplacedStepDimension name _dims._step_dim) := by
  cases dims with
  | nil => simp at h
  | cons d rest =>
    simp only [List.tail_cons] at h
    rw [checkDims, CheckState.init, checkLoop, checkDim_seen_nil]
    split_ifs
    · omega
    · exact checkLoop_pos_error _dims name rest 1 _ _ _ Nat.one_pos h
    · exact checkLoop_pos_error _dims name rest 1 _ _ _ Nat.one_pos h
    · exact checkLoop_pos_error _dims name rest 1 _ _ _ Nat.one_pos h
    · exact checkLoop_pos_error _dims name rest 1 _ _ _ Nat.one_pos h

/-- The check runs to the end when the step label is nowhere beyond index 0, and then holds
the step position, the count of fold labels, and an empty set of seen labels. -/
theorem checkDims_ok (_dims : Dims) (name : String) (dims : List String)
    (h : _dims._step_dim ∉ dims.tail) :
    ∃ ip, checkDims _dims name dims
      = .ok ⟨if dims.head? = some _dims._step_dim then 1 else 0, ip,
          dims.countP (isVecDim _dims), []⟩ := by
  cases dims with
  | nil => exact ⟨0, by simp [checkDims, checkLoop, CheckState.init]⟩
  | cons d rest =>
    simp only [List.tail_cons] at h
    rw [checkDims, CheckState.init, checkLoop, checkDim_seen_nil]
    by_cases hd : d = _dims._step_dim
    · have hvd : ¬ isVecDim _dims d = true := by simp [isVecDim, hd]
      obtain ⟨ip1, h1⟩ := checkLoop_pos_ok _dims name rest 1 1 0 0 Nat.one_pos h
      refine ⟨ip1, ?_⟩
      rw [if_pos hd, if_neg (by omega), List.countP_cons_of_neg _ _ hvd]
      show checkLoop _ _ _ _ _ = _
      rw [h1]
      simp [hd]
    · have hhead : ¬ (d :: rest).head? = some _dims._step_dim := by simpa using hd
      rw [if_neg hd, if_neg hhead]
      by_cases hv : (_dims._vec_fold_pts.lookup d).isSome = true
      · have hvd : isVecDim _dims d = true := by simp [isVecDim, hd, hv]
        rw [if_pos hv, List.countP_cons_of_pos _ _ hvd]
        split_ifs
        · obtain ⟨ip1, h1⟩ := checkLoop_pos_ok _dims name rest 1 0 1 1 Nat.one_pos h
          exact ⟨ip1, by show checkLoop _ _ _ _ _ = _; rw [h1]; congr 2; omega⟩
        · obtain ⟨ip1, h1⟩ := checkLoop_pos_ok _dims name rest 1 0 0 1 Nat.one_pos h
          exact ⟨ip1, by show checkLoop _ _ _ _ _ = _; rw [h1]; congr 2; omega⟩
      · have hvd : ¬ isVecDim _dims d = true := by simp [isVecDim, hd, hv]
        rw [if_neg hv, List.countP_cons_of_neg _ _ hvd]
        obtain ⟨ip1, h1⟩ := checkLoop_pos_ok _dims name rest 1 0 0 0 Nat.one_pos h
        exact ⟨ip1, by show checkLoop _ _ _ _ _ = _; rw [h1]; simp⟩

/-- When the check runs to the end, the step label is nowhere beyond index 0. -/
theorem checkDims_ok_not_mem_tail (_dims : Dims) (name : String) (dims : List String)
    (st : CheckState) (h : checkDims _dims name dims = .ok st) :
    _dims._step_dim ∉ dims.tail := by
  intro hmem
  rw [checkDims_misplaced _dims name dims hmem] at h
  cases h

/-- The state in which a successful check ends. -/
theorem checkDims_ok_state (_dims : Dims) (name : String) (dims : List String)
    (st : CheckState) (h : checkDims _dims name dims = .ok st) :
    st.step_posn = (if dims.head? = some _dims._step_dim then 1 else 0) ∧
      st.num_vec_dims = dims.countP (isVecDim _dims) ∧ st.seenDims = [] := by
  obtain ⟨ip, h1⟩ := checkDims_ok _dims name dims (checkDims_ok_not_mem_tail _ _ _ _ h)
  rw [h1] at h
  cases h
  exact ⟨rfl, rfl, rfl⟩

/-- The only error of the check is the step-placement error. -/
theorem checkDims_error (_dims : Dims) (name : String) (dims : List String)
    (e : GridError) (h : checkDims _dims name dims = .error e) :
    e = .MisplacedStepDimension name _dims._step_dim ∧ _dims._step_dim ∈ dims.tail := by
  by_cases hmem : _dims._step_dim ∈ dims.tail
  · rw [checkDims_misplaced _dims name dims hmem] at h
    cases h
    exact ⟨rfl, hmem⟩
  · obtain ⟨ip, h1⟩ := checkDims_ok _dims name dims hmem
    rw [h1] at h
    cases h

/-- Where a run of the loop that reaches its end leaves `inner_posn`: untouched when the inner
label is not a fold label other than the step label or is not met, and otherwise at the
1-based index of an occurrence of the inner label. -/
theorem checkLoop_inner (_dims : Dims) (name : String) (ds : List String) :
    ∀ (i sp ip nv : Nat) (st1 : CheckState),
      checkLoop _dims name ds i ⟨sp, ip, nv, []⟩ = .ok st1 →
      (st1.inner_posn = ip ∧
        ¬ (_dims._inner_dim ∈ _dims._vec_fold_pts.names ∧
            _dims._inner_dim ≠ _dims._step_dim ∧ _dims._inner_dim ∈ ds)) ∨
      (_dims._inner_dim ∈ _dims._vec_fold_pts.names ∧
        _dims._inner_dim ≠ _dims._step_dim ∧
        ∃ j, ds[j]? = some _dims._inner_dim ∧ st1.inner_posn = i + j + 1) := by
  induction ds with
  | nil =>
    intro i sp ip nv st1 h
    simp only [checkLoop] at h
    cases h
    exact Or.inl ⟨rfl, by simp⟩
  | cons d rest ih =>
    intro i sp ip nv st1 h
    rw [checkLoop, checkDim_seen_nil] at h
    -- the later iterations, whatever the state after this one
    have later : ∀ sp1 ip1 nv1,
        checkLoop _dims name rest (i + 1) ⟨sp1, ip1, nv1, []⟩ = .ok st1 →
        (st1.inner_posn = ip1 ∧
          ¬ (_dims._inner_dim ∈ _dims._vec_fold_pts.names ∧
              _dims._inner_dim ≠ _dims._step_dim ∧ _dims._inner_dim ∈ rest)) ∨
        (_dims._inner_dim ∈ _dims._vec_fold_pts.names ∧
          _dims._inner_dim ≠ _dims._step_dim ∧
          ∃ j, (d :: rest)[j]? = some _dims._inner_dim ∧ st1.inner_posn = i + j + 1) := by
      intro sp1 ip1 nv1 h1
      rcases ih (i + 1) sp1 ip1 nv1 st1 h1 with hl | ⟨hn, hs, j, hj, hp⟩
      · exact Or.inl hl
      · exact Or.inr ⟨hn, hs, j + 1, by simpa using hj, by omega⟩
    by_cases hd : d = _dims._step_dim
    · rw [if_pos hd] at h
      by_cases hi : i > 0
      · rw [if_pos hi] at h
        cases h
      · rw [if_neg hi] at h
        rcases later _ _ _ h with ⟨hp, hno⟩ | hr
        · refine Or.inl ⟨hp, ?_⟩
          rintro ⟨hn, hs, hmem⟩
          rcases List.mem_cons.mp hmem with heq | hmem
          · exact hs (heq.trans hd)
          · exact hno ⟨hn, hs, hmem⟩
        · exact Or.inr hr
    · rw [if_neg hd] at h
      by_cases hv : (_dims._vec_fold_pts.lookup d).isSome = true
      · rw [if_pos hv] at h
        by_cases hin : d = _dims._inner_dim
        · rw [if_pos hin] at h
          have hn : _dims._inner_dim ∈ _dims._vec_fold_pts.names :=
            hin ▸ (IdxTuple.lookup_isSome_iff _ d).mp hv
          have hs : _dims._inner_dim ≠ _dims._step_dim := hin ▸ hd
          rcases later _ _ _ h with ⟨hp, _⟩ | hr
          · exact Or.inr ⟨hn, hs, 0, by simp [hin], by omega⟩
          · exact Or.inr hr
        · rw [if_neg hin] at h
          rcases later _ _ _ h with ⟨hp, hno⟩ | hr
          · refine Or.inl ⟨hp, ?_⟩
            rintro ⟨hn, hs, hmem⟩
            rcases List.mem_cons.mp hmem with heq | hmem
            · exact hin heq.symm
            · exact hno ⟨hn, hs, hmem⟩
          · exact Or.inr hr
      · rw [if_neg hv] at h
        rcases later _ _ _ h with ⟨hp, hno⟩ | hr
        · refine Or.inl ⟨hp, ?_⟩
          rintro ⟨hn, hs, hmem⟩
          rcases List.mem_cons.mp hmem with heq | hmem
          · exact hv (heq ▸ (IdxTuple.lookup_isSome_iff _ _).mpr hn)
          · exact hno ⟨hn, hs, hmem⟩
        · exact Or.inr hr

/-- Where a successful check leaves `inner_posn`. -/
theorem checkDims_inner (_dims : Dims) (name : String) (dims : List String)
    (st : CheckState) (h : checkDims _dims name dims = .ok st) :
    (st.inner_posn = 0 ∧
      ¬ (_dims._inner_dim ∈ _dims._vec_fold_pts.names ∧
          _dims._inner_dim ≠ _dims._step_dim ∧ _dims._inner_dim ∈ dims)) ∨
    (_dims._inner_dim ∈ _dims._vec_fold_pts.names ∧
      _dims._inner_dim ≠ _dims._step_dim ∧
      ∃ j, dims[j]? = some _dims._inner_dim ∧ st.inner_posn = j + 1) := by
  rcases checkLoop_inner _dims name dims 0 0 0 0 st h with hl | ⟨hn, hs, j, hj, hp⟩
  · exact Or.inl hl
  · exact Or.inr ⟨hn, hs, j, hj, by omega⟩

/-- The loop over a concatenation is the loop over the first part followed, from the state
it ends in, by the loop over the second part. -/
theorem checkLoop_append (_dims : Dims) (name : String) (l₁ l₂ : List String) :
    ∀ (i : Nat) (st : CheckState),
      checkLoop _dims name (l₁ ++ l₂) i st =
        match checkLoop _dims name l₁ i st with
        | .error e => .error e
        | .ok st1 => checkLoop _dims name l₂ (i + l₁.length) st1 := by
  induction l₁ with
  | nil => intro i st; simp [checkLoop]
  | cons d rest ih =>
    intro i st
    rw [List.cons_append, checkLoop, checkLoop]
    rcases hd : checkDim _dims name i d st with e | st1
    · rfl
    · simp only []
      rw [ih (i + 1) st1, List.length_cons]
      have : i + 1 + rest.length = i + (rest.length + 1) := by omega
      rw [this]

/-- The fold labels counted, together with a leading step label, fit in the sequence. -/
theorem countP_isVecDim_add_le (_dims : Dims) (dims : List String) :
    dims.countP (isVecDim _dims) + (if dims.head? = some _dims._step_dim then 1 else 0)
      ≤ dims.length := by
  cases dims with
  | nil => simp
  | cons d rest =>
    by_cases hd : d = _dims._step_dim
    · have hvd : ¬ isVecDim _dims d = true := by simp [isVecDim, hd]
      rw [List.countP_cons_of_neg _ _ hvd]
      have := List.countP_le_length (isVecDim _dims) (l := rest)
      simp only [List.head?_cons, hd, if_true, List.length_cons]
      omega
    · have hh : ¬ (d :: rest).head? = some _dims._step_dim := by simpa using hd
      rw [if_neg hh]
      exact List.countP_le_length _

/-! ## Lemmas on the factory -/

theorem newGrid_fst {σ : Type} (ctx : Context σ) (_dims : Dims) (MAX_DIMS : Nat)
    (name : String) (dims : List String) (is_visible : Bool) (s : σ) :
    (newGrid ctx _dims MAX_DIMS name dims is_visible s).1
      = gridResult _dims MAX_DIMS name dims := by
  unfold newGrid gridResult
  rcases hc : checkDims _dims name dims with e | st
  · rfl
  · simp only []
    rcases hsel : selectGrid MAX_DIMS _dims name dims st with _ | gp <;> rfl

theorem newGrid_snd {σ : Type} (ctx : Context σ) (_dims : Dims) (MAX_DIMS : Nat)
    (name : String) (dims : List String) (is_visible : Bool) (s : σ) :
    (newGrid ctx _dims MAX_DIMS name dims is_visible s).2
      = match gridResult _dims MAX_DIMS name dims with
        | .error _ => s
        | .ok gp => if is_visible then ctx.update_grids (ctx.addGrid gp false s) else s := by
  unfold newGrid gridResult
  rcases hc : checkDims _dims name dims with e | st
  · rfl
  · simp only []
    rcases hsel : selectGrid MAX_DIMS _dims name dims st with _ | gp
    · rfl
    · cases is_visible <;> rfl

/-- A successful call went through a successful check and a successful selection. -/
theorem gridResult_ok_check (_dims : Dims) (MAX_DIMS : Nat) (name : String)
    (dims : List String) (gp : YkGrid) (h : gridResult _dims MAX_DIMS name dims = .ok gp) :
    ∃ st, checkDims _dims name dims = .ok st ∧
      selectGrid MAX_DIMS _dims name dims st = some gp := by
  unfold gridResult at h
  rcases hc : checkDims _dims name dims with e | st
  · rw [hc] at h; cases h
  · rw [hc] at h
    simp only [] at h
    rcases hsel : selectGrid MAX_DIMS _dims name dims st with _ | g
    · rw [hsel] at h; cases h
    · rw [hsel] at h
      cases h
      exact ⟨st, rfl, hsel⟩

/-- The result of a call whose check and selection succeed. -/
theorem gridResult_of_check (_dims : Dims) (MAX_DIMS : Nat) (name : String)
    (dims : List String) (st : CheckState) (h : checkDims _dims name dims = .ok st) :
    gridResult _dims MAX_DIMS name dims =
      match selectGrid MAX_DIMS _dims name dims st with
      | none => .error (.UnsupportedDimensionCount name dims.length MAX_DIMS)
      | some gp => .ok gp := by
  unfold gridResult
  rw [h]

/-! ## Lemmas on the fold decision -/

theorem do_fold_iff (_dims : Dims) (st : CheckState) :
    do_fold _dims st = true ↔
      1 ≤ st.num_vec_dims ∧ st.num_vec_dims = _dims._vec_fold_pts.names.length := by
  simp [do_fold, IdxTuple.getNumDims_eq]

/-- The labels counted are the fold labels other than the step label. -/
theorem isVecDim_eq (_dims : Dims) (d : String) :
    isVecDim _dims d = decide (d ∈ _dims._vec_fold_pts.names ∧ d ≠ _dims._step_dim) := by
  rw [Bool.eq_iff_iff]
  simp only [isVecDim, Bool.and_eq_true, decide_eq_true_eq, IdxTuple.lookup_isSome_iff]
  tauto

/-- With the step label outside the fold tuple and no repeated label, the count of fold
labels in the sequence is the number of fold labels that occur in it. -/
theorem countP_isVecDim_nodup (_dims : Dims) (dims : List String)
    (hstep : _dims._step_dim ∉ _dims._vec_fold_pts.names) (hnd : dims.Nodup) :
    dims.countP (isVecDim _dims)
      = (_dims._vec_fold_pts.names.filter (fun k => decide (k ∈ dims))).length := by
  have h1 : dims.countP (isVecDim _dims)
      = dims.countP (fun d => decide (d ∈ _dims._vec_fold_pts.names)) := by
    apply List.countP_congr
    intro d _
    rw [isVecDim_eq]
    simp only [decide_eq_true_eq]
    constructor
    · exact fun h => h.1
    · exact fun h => ⟨h, fun hd => hstep (hd ▸ h)⟩
  rw [h1, List.countP_eq_length_filter]
  exact length_filter_mem_comm hnd _dims._vec_fold_pts.nodup_names

/-- The fold rule on a successful check of a duplicate-free sequence, for a configuration
whose fold tuple does not hold the step label. -/
theorem fold_rule (_dims : Dims) (name : String) (dims : List String) (st : CheckState)
    (hstep : _dims._step_dim ∉ _dims._vec_fold_pts.names) (hnd : dims.Nodup)
    (hc : checkDims _dims name dims = .ok st) :
    do_fold _dims st = true ↔
      _dims._vec_fold_pts.names ≠ [] ∧ ∀ k ∈ _dims._vec_fold_pts.names, k ∈ dims := by
  obtain ⟨_, hnum, _⟩ := checkDims_ok_state _ _ _ _ hc
  rw [do_fold_iff, hnum, countP_isVecDim_nodup _dims dims hstep hnd,
    List.filter_length_eq_length]
  simp only [decide_eq_true_eq]
  constructor
  · rintro ⟨h1, h2⟩
    refine ⟨?_, h2⟩
    intro hnil
    rw [hnil] at h1
    simp at h1
  · rintro ⟨h1, h2⟩
    refine ⟨?_, h2⟩
    have hall : (_dims._vec_fold_pts.names.filter (fun k => decide (k ∈ dims))).length
        = _dims._vec_fold_pts.names.length := by
      rw [List.filter_length_eq_length]
      simpa using h2
    rw [hall]
    exact List.length_pos.mpr h1

/-! ## Claims -/

/-- C1 (the code departs from it): a label sequence with a repeated label is not rejected.
On `["x","y","x"]` with step `t` and fold `x, y` the check runs to the end, having counted
three fold labels, and for no value of `MAX_DIMS` does `newGrid` end in the
duplicate-dimension error; with `MAX_DIMS = 3` it returns a three-dimensional grid. -/
theorem C1_repeated_label_accepted :
    checkDims exampleDims "g" ["x", "y", "x"] = .ok ⟨0, 3, 3, []⟩ ∧
    (∀ (MAX_DIMS : Nat) (is_visible : Bool) (log : List Call) (n d : String),
      (newGrid traceContext exampleDims MAX_DIMS "g" ["x", "y", "x"] is_visible log).1
        ≠ .error (.DuplicateDimension n d)) ∧
    newGrid traceContext exampleDims 3 "g" ["x", "y", "x"] false []
      = (.ok ⟨⟨false, 3, false⟩, "g", ["x", "y", "x"]⟩, []) := by
  refine ⟨by decide, ?_, by decide⟩
  intro MAX_DIMS is_visible log n d h
  rw [newGrid_fst] at h
  rcases hr : gridResult exampleDims MAX_DIMS "g" ["x", "y", "x"] with e | gp
  · rw [hr] at h
    have h1 : checkDims exampleDims "g" ["x", "y", "x"] = .ok ⟨0, 3, 3, []⟩ := by decide
    rw [gridResult_of_check _ _ _ _ _ h1] at hr
    split at hr
    · cases hr; cases h
    · cases hr
  · rw [hr] at h; cases h

/-- C2: when the step label stands at some index `i > 0`, `newGrid` ends in the
step-placement error; when it stands at no index beyond 0, `newGrid` does not end in that
error. -/
theorem C2_step_placement {σ : Type} (ctx : Context σ) (_dims : Dims) (MAX_DIMS : Nat)
    (name : String) (dims : List String) (is_visible : Bool) (s : σ) :
    ((∃ i, 0 < i ∧ dims[i]? = some _dims._step_dim) →
      (newGrid ctx _dims MAX_DIMS name dims is_visible s).1
        = .error (.MisplacedStepDimension name _dims._step_dim)) ∧
    ((∀ i, 0 < i → dims[i]? ≠ some _dims._step_dim) →
      ∀ n d, (newGrid ctx _dims MAX_DIMS name dims is_visible s).1
        ≠ .error (.MisplacedStepDimension n d)) := by
  rw [newGrid_fst]
  constructor
  · intro h
    have hm := (mem_tail_iff_getElem? _ dims).mpr h
    unfold gridResult
    rw [checkDims_misplaced _dims name dims hm]
  · intro h n d hr
    have hm : _dims._step_dim ∉ dims.tail := by
      intro hmem
      obtain ⟨i, hi, hx⟩ := (mem_tail_iff_getElem? _ dims).mp hmem
      exact h i hi hx
    obtain ⟨ip, hc⟩ := checkDims_ok _dims name dims hm
    rw [gridResult_of_check _ _ _ _ _ hc] at hr
    split at hr <;> cases hr

/-- C2 at `["x","t","y"]` (step label at index 1) and at `["t","x","y"]` (step label at
index 0 only). -/
theorem C2_step_placement_witness :
    (newGrid traceContext exampleDims 3 "g" ["x", "t", "y"] true []).1
        = .error (.MisplacedStepDimension "g" "t") ∧
    ∀ n d, (newGrid traceContext exampleDims 3 "g" ["t", "x", "y"] true []).1
        ≠ .error (.MisplacedStepDimension n d) :=
  ⟨(C2_step_placement traceContext exampleDims 3 "g" ["x", "t", "y"] true []).1
      ⟨1, by decide, by decide⟩,
    (C2_step_placement traceContext exampleDims 3 "g" ["t", "x", "y"] true []).2
      (by
        intro i hi
        rcases i with _ | _ | _ | i
        · omega
        · decide
        · decide
        · simp)⟩

/-- C4: when the step label occurs two or more times, `newGrid` fails and returns no grid;
and when `newGrid` returns a grid, the step label occurs at most once and only at index 0. -/
theorem C4_step_at_most_once {σ : Type} (ctx : Context σ) (_dims : Dims) (MAX_DIMS : Nat)
    (name : String) (dims : List String) (is_visible : Bool) (s : σ) :
    (2 ≤ dims.count _dims._step_dim →
      (∃ e, (newGrid ctx _dims MAX_DIMS name dims is_visible s).1 = .error e) ∧
      ∀ gp, (newGrid ctx _dims MAX_DIMS name dims is_visible s).1 ≠ .ok gp) ∧
    (∀ gp, (newGrid ctx _dims MAX_DIMS name dims is_visible s).1 = .ok gp →
      dims.count _dims._step_dim ≤ 1 ∧ ∀ i, dims[i]? = some _dims._step_dim → i = 0) := by
  rw [newGrid_fst]
  have key : 2 ≤ dims.count _dims._step_dim → _dims._step_dim ∈ dims.tail := by
    intro h
    cases dims with
    | nil => simp at h
    | cons d rest =>
      simp only [List.tail_cons]
      rw [List.count_cons] at h
      have : 0 < rest.count _dims._step_dim := by
        split_ifs at h <;> omega
      exact List.count_pos_iff.mp this
  constructor
  · intro h
    have hr : gridResult _dims MAX_DIMS name dims
        = .error (.MisplacedStepDimension name _dims._step_dim) := by
      unfold gridResult
      rw [checkDims_misplaced _dims name dims (key h)]
    rw [hr]
    exact ⟨⟨_, rfl⟩, fun gp hgp => by cases hgp⟩
  · intro gp hgp
    obtain ⟨st, hc, _⟩ := gridResult_ok_check _ _ _ _ _ hgp
    have hm := checkDims_ok_not_mem_tail _ _ _ _ hc
    constructor
    · by_contra hlt
      exact hm (key (by omega))
    · intro i hi
      by_contra h0
      exact hm ((mem_tail_iff_getElem? _ dims).mpr ⟨i, by omega, hi⟩)

/-- C4 at `["t","x","t"]` (the step label twice) and at `["t","x","y"]` (a grid is
returned). -/
theorem C4_step_at_most_once_witness :
    ((∃ e, (newGrid traceContext exampleDims 3 "g" ["t", "x", "t"] true []).1 = .error e) ∧
      ∀ gp, (newGrid traceContext exampleDims 3 "g" ["t", "x", "t"] true []).1 ≠ .ok gp) ∧
    (["t", "x", "y"].count exampleDims._step_dim ≤ 1 ∧
      ∀ i, ["t", "x", "y"][i]? = some exampleDims._step_dim → i = 0) :=
  ⟨(C4_step_at_most_once traceContext exampleDims 3 "g" ["t", "x", "t"] true []).1
      (by decide),
    (C4_step_at_most_once traceContext exampleDims 3 "g" ["t", "x", "y"] true []).2
      ⟨⟨true, 3, true⟩, "g", ["t", "x", "y"]⟩ (by decide)⟩

/-- C5: on the empty label sequence, for every configuration, name and `MAX_DIMS`, the check
succeeds with step position 0, inner position 0 and fold count 0, the fold flag is false,
and `newGrid` returns the grid of class `YkElemGrid<Layout_0d, false>`. -/
theorem C5_scalar_case {σ : Type} (ctx : Context σ) (_dims : Dims) (MAX_DIMS : Nat)
    (name : String) (is_visible : Bool) (s : σ) :
    checkDims _dims name [] = .ok ⟨0, 0, 0, []⟩ ∧
    do_fold _dims ⟨0, 0, 0, []⟩ = false ∧
    (newGrid ctx _dims MAX_DIMS name [] is_visible s).1
      = .ok ⟨GridType.elem0d, name, []⟩ ∧
    GridType.elem0d = ⟨false, 0, false⟩ := by
  refine ⟨rfl, by simp [do_fold], ?_, rfl⟩
  rw [newGrid_fst]
  rfl

/-- C3 (as a counterexample): with an empty fold tuple every label of the fold tuple occurs
in `["x"]`, `newGrid` returns a grid, and the fold flag is false. -/
theorem C3_counterexample :
    (newGrid traceContext noFoldDims 3 "g" ["x"] false []).1
      = .ok ⟨⟨false, 1, false⟩, "g", ["x"]⟩ ∧
    checkDims noFoldDims "g" ["x"] = .ok ⟨0, 0, 0, []⟩ ∧
    ¬ (do_fold noFoldDims ⟨0, 0, 0, []⟩ = true ↔
        ∀ k ∈ noFoldDims._vec_fold_pts.names, k ∈ ["x"]) := by
  refine ⟨by decide, by decide, ?_⟩
  intro h
  have : do_fold noFoldDims ⟨0, 0, 0, []⟩ = true := h.mpr (by simp [noFoldDims, IdxTuple.names])
  revert this
  decide

/-- C3 (amended): for a configuration whose fold tuple does not hold the step label and a
duplicate-free label sequence on which `newGrid` returns a grid, the fold flag is true iff
the fold tuple is non-empty and each of its labels occurs in the sequence. With fold labels
`x` and `y`: a sequence with `x` and without `y` is not folded, one with both is folded. -/
theorem C3_fold_all_or_nothing {σ : Type} (ctx : Context σ) (_dims : Dims) (MAX_DIMS : Nat)
    (name : String) (dims : List String) (is_visible : Bool) (s : σ) (gp : YkGrid)
    (hstep : _dims._step_dim ∉ _dims._vec_fold_pts.names) (hnd : dims.Nodup)
    (hok : (newGrid ctx _dims MAX_DIMS name dims is_visible s).1 = .ok gp) :
    ∃ st, checkDims _dims name dims = .ok st ∧
      (do_fold _dims st = true ↔
        _dims._vec_fold_pts.names ≠ [] ∧ ∀ k ∈ _dims._vec_fold_pts.names, k ∈ dims) ∧
      ((∀ k, k ∈ _dims._vec_fold_pts.names ↔ k = "x" ∨ k = "y") →
        ("x" ∈ dims → "y" ∉ dims → do_fold _dims st = false) ∧
        ("x" ∈ dims → "y" ∈ dims → do_fold _dims st = true)) := by
  rw [newGrid_fst] at hok
  obtain ⟨st, hc, _⟩ := gridResult_ok_check _ _ _ _ _ hok
  have hrule := fold_rule _dims name dims st hstep hnd hc
  refine ⟨st, hc, hrule, ?_⟩
  intro hxy
  constructor
  · intro _ hy
    rw [Bool.eq_false_iff]
    intro hf
    exact hy ((hrule.mp hf).2 "y" ((hxy "y").mpr (Or.inr rfl)))
  · intro hx hy
    rw [hrule]
    refine ⟨?_, ?_⟩
    · intro hnil
      have := (hxy "x").mpr (Or.inl rfl)
      rw [hnil] at this
      simp at this
    · intro k hk
      rcases (hxy k).mp hk with rfl | rfl
      · exact hx
      · exact hy

/-- C3 (amended) at `["t","x","y"]` with step `t` and fold `x, y`. -/
theorem C3_fold_all_or_nothing_witness :
    ∃ st, checkDims exampleDims "g" ["t", "x", "y"] = .ok st ∧
      (do_fold exampleDims st = true ↔
        exampleDims._vec_fold_pts.names ≠ [] ∧
          ∀ k ∈ exampleDims._vec_fold_pts.names, k ∈ ["t", "x", "y"]) ∧
      ((∀ k, k ∈ exampleDims._vec_fold_pts.names ↔ k = "x" ∨ k = "y") →
        ("x" ∈ ["t", "x", "y"] → "y" ∉ ["t", "x", "y"] → do_fold exampleDims st = false) ∧
        ("x" ∈ ["t", "x", "y"] → "y" ∈ ["t", "x", "y"] → do_fold exampleDims st = true)) :=
  C3_fold_all_or_nothing traceContext exampleDims 3 "g" ["t", "x", "y"] true []
    ⟨⟨true, 3, true⟩, "g", ["t", "x", "y"]⟩ (by decide) (by decide) (by decide)

/-- C6: a duplicate-free label sequence of length `MAX_DIMS` with the step label nowhere
beyond index 0 passes the check, a grid is selected and `newGrid` returns it; a label
sequence of length `MAX_DIMS + 1` that passes the check has no grid selected and `newGrid`
ends in the unsupported-dimension-count error. -/
theorem C6_dimension_ceiling {σ : Type} (ctx : Context σ) (_dims : Dims) (MAX_DIMS : Nat)
    (name : String) (dims : List String) (is_visible : Bool) (s : σ) :
    (dims.Nodup → (∀ i, 0 < i → dims[i]? ≠ some _dims._step_dim) →
      dims.length = MAX_DIMS →
      ∃ st gp, checkDims _dims name dims = .ok st ∧
        selectGrid MAX_DIMS _dims name dims st = some gp ∧
        (newGrid ctx _dims MAX_DIMS name dims is_visible s).1 = .ok gp) ∧
    (∀ st, checkDims _dims name dims = .ok st → dims.length = MAX_DIMS + 1 →
      selectGrid MAX_DIMS _dims name dims st = none ∧
      (newGrid ctx _dims MAX_DIMS name dims is_visible s).1
        = .error (.UnsupportedDimensionCount name (MAX_DIMS + 1) MAX_DIMS)) := by
  rw [newGrid_fst]
  constructor
  · intro _ hfirst hlen
    have hm : _dims._step_dim ∉ dims.tail := by
      intro hmem
      obtain ⟨i, hi, hx⟩ := (mem_tail_iff_getElem? _ dims).mp hmem
      exact hfirst i hi hx
    obtain ⟨ip, hc⟩ := checkDims_ok _dims name dims hm
    rw [gridResult_of_check _ _ _ _ _ hc]
    rcases hsel : selectGrid MAX_DIMS _dims name dims _ with _ | gp
    · exfalso
      unfold selectGrid yask_grid_code at hsel
      rw [if_pos (Nat.le_of_eq hlen)] at hsel
      split_ifs at hsel
    · exact ⟨_, gp, hc, hsel, rfl⟩
  · intro st hc hlen
    have hsel : selectGrid MAX_DIMS _dims name dims st = none := by
      simp [selectGrid, yask_grid_code, hlen]
    rw [gridResult_of_check _ _ _ _ _ hc, hsel, hlen]
    exact ⟨rfl, rfl⟩

/-- C6 at `["t","x","y"]`, with `MAX_DIMS = 3` and with `MAX_DIMS = 2`. -/
theorem C6_dimension_ceiling_witness :
    (∃ st gp, checkDims exampleDims "g" ["t", "x", "y"] = .ok st ∧
        selectGrid 3 exampleDims "g" ["t", "x", "y"] st = some gp ∧
        (newGrid traceContext exampleDims 3 "g" ["t", "x", "y"] true []).1 = .ok gp) ∧
    (selectGrid 2 exampleDims "g" ["t", "x", "y"] ⟨1, 2, 2, []⟩ = none ∧
      (newGrid traceContext exampleDims 2 "g" ["t", "x", "y"] true []).1
        = .error (.UnsupportedDimensionCount "g" (2 + 1) 2)) :=
  ⟨(C6_dimension_ceiling traceContext exampleDims 3 "g" ["t", "x", "y"] true []).1
      (by decide)
      (by
        intro i hi
        rcases i with _ | _ | _ | i
        · omega
        · decide
        · decide
        · simp)
      (by decide),
    (C6_dimension_ceiling traceContext exampleDims 2 "g" ["t", "x", "y"] true []).2
      ⟨1, 2, 2, []⟩ (by decide) (by decide)⟩

/-- C7: when `newGrid` returns a grid `gp`: with `is_visible = false` the context state is
the one before the call and no collaborator was called; with `is_visible = true` the context
state is that of `addGrid(gp, false)` followed by `update_grids()`, and the calls made are
these two, once each, in this order. -/
theorem C7_registration {σ : Type} (ctx : Context σ) (_dims : Dims) (MAX_DIMS : Nat)
    (name : String) (dims : List String) (is_visible : Bool) (s : σ) (gp : YkGrid)
    (hok : (newGrid ctx _dims MAX_DIMS name dims is_visible s).1 = .ok gp) :
    (is_visible = false →
      (newGrid ctx _dims MAX_DIMS name dims is_visible s).2 = s ∧
      ∀ log, (newGrid traceContext _dims MAX_DIMS name dims is_visible log).2 = log) ∧
    (is_visible = true →
      (newGrid ctx _dims MAX_DIMS name dims is_visible s).2
        = ctx.update_grids (ctx.addGrid gp false s) ∧
      ∀ log, (newGrid traceContext _dims MAX_DIMS name dims is_visible log).2
        = log ++ [Call.addGrid gp false, Call.update_grids]) := by
  rw [newGrid_fst] at hok
  constructor
  · intro hv
    subst hv
    refine ⟨?_, fun log => ?_⟩ <;> rw [newGrid_snd, hok] <;> rfl
  · intro hv
    subst hv
    refine ⟨?_, fun log => ?_⟩ <;> rw [newGrid_snd, hok]
    · rfl
    · simp [traceContext]

/-- C7 at `["t","x","y"]` with `is_visible = true`, from an empty list of calls. -/
theorem C7_registration_witness :
    (newGrid traceContext exampleDims 3 "g" ["t", "x", "y"] true []).2
        = traceContext.update_grids
            (traceContext.addGrid ⟨⟨true, 3, true⟩, "g", ["t", "x", "y"]⟩ false []) ∧
      ∀ log, (newGrid traceContext exampleDims 3 "g" ["t", "x", "y"] true log).2
        = log ++ [Call.addGrid ⟨⟨true, 3, true⟩, "g", ["t", "x", "y"]⟩ false,
            Call.update_grids] :=
  (C7_registration traceContext exampleDims 3 "g" ["t", "x", "y"] true []
    ⟨⟨true, 3, true⟩, "g", ["t", "x", "y"]⟩ (by decide)).2 rfl

/-- C8: when `newGrid` fails, it returns no grid, the context state is the one before the
call, and neither `addGrid` nor `update_grids` was called, whatever `is_visible` is. -/
theorem C8_failure_atomic {σ : Type} (ctx : Context σ) (_dims : Dims) (MAX_DIMS : Nat)
    (name : String) (dims : List String) (is_visible : Bool) (s : σ) (e : GridError)
    (hfail : (newGrid ctx _dims MAX_DIMS name dims is_visible s).1 = .error e) :
    (∀ gp, (newGrid ctx _dims MAX_DIMS name dims is_visible s).1 ≠ .ok gp) ∧
    (newGrid ctx _dims MAX_DIMS name dims is_visible s).2 = s ∧
    ∀ log, (newGrid traceContext _dims MAX_DIMS name dims is_visible log).2 = log := by
  refine ⟨fun gp hgp => ?_, ?_, fun log => ?_⟩
  · rw [hfail] at hgp; cases hgp
  · rw [newGrid_fst] at hfail
    rw [newGrid_snd, hfail]
  · rw [newGrid_fst] at hfail
    rw [newGrid_snd, hfail]

/-- C8 at `["x","t","y"]` (step-placement error) with `is_visible = true`. -/
theorem C8_failure_atomic_witness :
    (∀ gp, (newGrid traceContext exampleDims 3 "g" ["x", "t", "y"] true []).1 ≠ .ok gp) ∧
    (newGrid traceContext exampleDims 3 "g" ["x", "t", "y"] true []).2 = [] ∧
    ∀ log, (newGrid traceContext exampleDims 3 "g" ["x", "t", "y"] true log).2 = log :=
  C8_failure_atomic traceContext exampleDims 3 "g" ["x", "t", "y"] true []
    (.MisplacedStepDimension "g" "t") (by decide)

/-- C9: for a configuration whose fold tuple does not hold the step label and a
duplicate-free label sequence with the step label nowhere beyond index 0, the check succeeds
and `do_fold`, computed as `num_vec_dims >= 1 && num_vec_dims == getNumDims()`, is true iff
the fold tuple is non-empty and each of its labels occurs in the sequence. -/
theorem C9_fold_rule (_dims : Dims) (name : String) (dims : List String)
    (hstep : _dims._step_dim ∉ _dims._vec_fold_pts.names) (hnd : dims.Nodup)
    (hfirst : ∀ i, 0 < i → dims[i]? ≠ some _dims._step_dim) :
    ∃ st, checkDims _dims name dims = .ok st ∧
      do_fold _dims st = (decide (st.num_vec_dims ≥ 1) &&
        decide (st.num_vec_dims = _dims._vec_fold_pts.getNumDims)) ∧
      (do_fold _dims st = true ↔
        _dims._vec_fold_pts.names ≠ [] ∧ ∀ k ∈ _dims._vec_fold_pts.names, k ∈ dims) := by
  have hm : _dims._step_dim ∉ dims.tail := by
    intro hmem
    obtain ⟨i, hi, hx⟩ := (mem_tail_iff_getElem? _ dims).mp hmem
    exact hfirst i hi hx
  obtain ⟨ip, hc⟩ := checkDims_ok _dims name dims hm
  exact ⟨_, hc, rfl, fold_rule _dims name dims _ hstep hnd hc⟩

/-- C9 at `["t","y","z","x"]` with step `t` and fold `x, y`. -/
theorem C9_fold_rule_witness :
    ∃ st, checkDims exampleDims "g" ["t", "y", "z", "x"] = .ok st ∧
      do_fold exampleDims st = (decide (st.num_vec_dims ≥ 1) &&
        decide (st.num_vec_dims = exampleDims._vec_fold_pts.getNumDims)) ∧
      (do_fold exampleDims st = true ↔
        exampleDims._vec_fold_pts.names ≠ [] ∧
          ∀ k ∈ exampleDims._vec_fold_pts.names, k ∈ ["t", "y", "z", "x"]) :=
  C9_fold_rule exampleDims "g" ["t", "y", "z", "x"] (by decide) (by decide)
    (by
      intro i hi
      rcases i with _ | _ | _ | _ | i
      · omega
      · decide
      · decide
      · decide
      · simp)

/-- C11: when the check succeeds, `step_posn` is 1 if the first label is the step label and
0 otherwise, and it is 0 exactly when the step label does not occur in the sequence. -/
theorem C11_step_position (_dims : Dims) (name : String) (dims : List String)
    (st : CheckState) (hc : checkDims _dims name dims = .ok st) :
    st.step_posn = (if dims.head? = some _dims._step_dim then 1 else 0) ∧
    (st.step_posn = 0 ↔ _dims._step_dim ∉ dims) := by
  obtain ⟨hsp, _, _⟩ := checkDims_ok_state _ _ _ _ hc
  have hm := checkDims_ok_not_mem_tail _ _ _ _ hc
  refine ⟨hsp, ?_⟩
  rw [hsp]
  cases dims with
  | nil => simp
  | cons d rest =>
    simp only [List.tail_cons] at hm
    by_cases hd : d = _dims._step_dim
    · simp [hd]
    · have hd1 : ¬ _dims._step_dim = d := fun h => hd h.symm
      simp [hd, hd1, hm]

/-- C11 at `["t","x","y"]` with step `t`. -/
theorem C11_step_position_witness :
    (⟨1, 2, 2, []⟩ : CheckState).step_posn
        = (if ["t", "x", "y"].head? = some exampleDims._step_dim then 1 else 0) ∧
    ((⟨1, 2, 2, []⟩ : CheckState).step_posn = 0 ↔
      exampleDims._step_dim ∉ ["t", "x", "y"]) :=
  C11_step_position exampleDims "g" ["t", "x", "y"] ⟨1, 2, 2, []⟩ (by decide)

/-- C13 (the code departs from it): with `MAX_DIMS = 2` the sequence `["x","y","x"]`, which
repeats a label and is longer than `MAX_DIMS`, ends in the unsupported-dimension-count
error and not in the duplicate-dimension error; the sequence `["x","t","y"]`, with the step
label at index 1, ends in the step-placement error. -/
theorem C13_repeated_label_reaches_length_bound :
    newGrid traceContext exampleDims 2 "g" ["x", "y", "x"] true []
      = (.error (.UnsupportedDimensionCount "g" 3 2), []) ∧
    newGrid traceContext exampleDims 2 "g" ["x", "t", "y"] true []
      = (.error (.MisplacedStepDimension "g" "t"), []) := by
  refine ⟨by decide, by decide⟩

/-- C14: for two label sequences that are permutations of one another and both pass the
check, the fold counts `num_vec_dims` are equal and the fold flags `do_fold` are equal. -/
theorem C14_fold_order_independent (_dims : Dims) (name₁ name₂ : String)
    (dims₁ dims₂ : List String) (st₁ st₂ : CheckState) (hperm : dims₁.Perm dims₂)
    (h₁ : checkDims _dims name₁ dims₁ = .ok st₁)
    (h₂ : checkDims _dims name₂ dims₂ = .ok st₂) :
    st₁.num_vec_dims = st₂.num_vec_dims ∧ do_fold _dims st₁ = do_fold _dims st₂ := by
  obtain ⟨_, hn₁, _⟩ := checkDims_ok_state _ _ _ _ h₁
  obtain ⟨_, hn₂, _⟩ := checkDims_ok_state _ _ _ _ h₂
  have hnum : st₁.num_vec_dims = st₂.num_vec_dims := by
    rw [hn₁, hn₂]
    exact hperm.countP_eq _
  exact ⟨hnum, by simp only [do_fold, hnum]⟩

/-- C14 at `["t","x","z","y"]` and `["t","y","x","z"]` with step `t` and fold `x, y`. -/
theorem C14_fold_order_independent_witness :
    (⟨1, 2, 2, []⟩ : CheckState).num_vec_dims = (⟨1, 3, 2, []⟩ : CheckState).num_vec_dims ∧
    do_fold exampleDims ⟨1, 2, 2, []⟩ = do_fold exampleDims ⟨1, 3, 2, []⟩ :=
  C14_fold_order_independent exampleDims "g" "h" ["t", "x", "z", "y"] ["t", "y", "x", "z"]
    ⟨1, 2, 2, []⟩ ⟨1, 3, 2, []⟩
    (List.Perm.cons "t"
      (List.Perm.trans (List.Perm.cons "x" (List.Perm.swap "y" "z" []))
        (List.Perm.swap "y" "x" ["z"])))
    (by decide) (by decide)

/-- C15: at every index of every label sequence, the run of the check is the loop over the
labels before that index, then the loop body at that index, then the rest; the state in
which the loop body is entered has an empty `seenDims`, and the body does not end in the
duplicate-dimension error. Hence `newGrid` never ends in that error: the only errors are
the step-placement error and the unsupported-dimension-count error. -/
theorem C15_seen_always_empty {σ : Type} (ctx : Context σ) (_dims : Dims) (MAX_DIMS : Nat)
    (name : String) (dims : List String) (is_visible : Bool) (s : σ) :
    (∀ (pre : List String) (d : String) (post : List String), dims = pre ++ d :: post →
      checkDims _dims name dims =
        (match checkLoop _dims name pre 0 CheckState.init with
          | .error e => .error e
          | .ok st =>
            match checkDim _dims name pre.length d st with
            | .error e => .error e
            | .ok st1 => checkLoop _dims name post (pre.length + 1) st1) ∧
      ∀ st, checkLoop _dims name pre 0 CheckState.init = .ok st →
        st.seenDims = [] ∧
        ∀ n x, checkDim _dims name pre.length d st ≠ .error (.DuplicateDimension n x)) ∧
    (∀ e, (newGrid ctx _dims MAX_DIMS name dims is_visible s).1 = .error e →
      e = .MisplacedStepDimension name _dims._step_dim ∨
      e = .UnsupportedDimensionCount name dims.length MAX_DIMS) ∧
    (∀ n x, (newGrid ctx _dims MAX_DIMS name dims is_visible s).1
      ≠ .error (.DuplicateDimension n x)) := by
  have herr : ∀ e, (newGrid ctx _dims MAX_DIMS name dims is_visible s).1 = .error e →
      e = .MisplacedStepDimension name _dims._step_dim ∨
      e = .UnsupportedDimensionCount name dims.length MAX_DIMS := by
    intro e he
    rw [newGrid_fst] at he
    rcases hc : checkDims _dims name dims with e1 | st
    · have hr : gridResult _dims MAX_DIMS name dims = .error e1 := by
        unfold gridResult
        rw [hc]
      rw [hr] at he
      cases he
      exact Or.inl (checkDims_error _ _ _ _ hc).1
    · rw [gridResult_of_check _ _ _ _ _ hc] at he
      split at he
      · cases he
        exact Or.inr rfl
      · cases he
  refine ⟨?_, herr, ?_⟩
  · intro pre d post hdims
    constructor
    · rw [hdims, checkDims, checkLoop_append]
      rcases checkLoop _dims name pre 0 CheckState.init with e | st
      · rfl
      · simp only [checkLoop, Nat.zero_add]
    · intro st hst
      have hseen : st.seenDims = [] := (checkDims_ok_state _dims name pre st hst).2.2
      refine ⟨hseen, ?_⟩
      intro n x hdup
      obtain ⟨sp, ip, nv, seen⟩ := st
      simp only at hseen
      subst hseen
      rw [checkDim_seen_nil] at hdup
      split_ifs at hdup
      cases hdup
  · intro n x h
    rcases herr _ h with h1 | h1 <;> cases h1

/-- C15 at `["x","y","x"]`, for the iteration at index 2 (the second `x`). -/
theorem C15_seen_always_empty_witness :
    (⟨0, 1, 2, []⟩ : CheckState).seenDims = [] ∧
    ∀ n x, checkDim exampleDims "g" ["x", "y"].length "x" ⟨0, 1, 2, []⟩
      ≠ .error (.DuplicateDimension n x) :=
  ((C15_seen_always_empty traceContext exampleDims 3 "g" ["x", "y", "x"] true []).1
    ["x", "y"] "x" [] rfl).2 ⟨0, 1, 2, []⟩ (by decide)

/-- C16: when the check of a label sequence of length `n` succeeds, `step_posn` is 0 or 1,
`inner_posn <= n`, `num_vec_dims <= n - (1 if step_posn = 1 else 0)`, `inner_posn` and
`step_posn` are equal only when both are 0, and `inner_posn > 0` gives `num_vec_dims >= 1`;
when `do_fold` holds, `n` is at least the size of the fold tuple plus
`(1 if step_posn = 1 else 0)`, which is at least 1, so the empty sequence is not folded. -/
theorem C16_derived_facts (_dims : Dims) (name : String) (dims : List String)
    (st : CheckState) (hc : checkDims _dims name dims = .ok st) :
    (st.step_posn = 0 ∨ st.step_posn = 1) ∧
    st.inner_posn ≤ dims.length ∧
    st.num_vec_dims + (if st.step_posn = 1 then 1 else 0) ≤ dims.length ∧
    st.num_vec_dims ≤ dims.length - (if st.step_posn = 1 then 1 else 0) ∧
    (st.inner_posn = st.step_posn → st.inner_posn = 0 ∧ st.step_posn = 0) ∧
    (0 < st.inner_posn → 1 ≤ st.num_vec_dims) ∧
    (do_fold _dims st = true →
      _dims._vec_fold_pts.getNumDims + (if st.step_posn = 1 then 1 else 0) ≤ dims.length ∧
      1 ≤ _dims._vec_fold_pts.getNumDims + (if st.step_posn = 1 then 1 else 0)) ∧
    (dims.length = 0 → do_fold _dims st = false) := by
  obtain ⟨hsp, hnum, _⟩ := checkDims_ok_state _ _ _ _ hc
  have hle := countP_isVecDim_add_le _dims dims
  rw [← hnum] at hle
  have hstep01 : st.step_posn = 0 ∨ st.step_posn = 1 := by
    rw [hsp]; split_ifs <;> simp
  have hif : (if st.step_posn = 1 then 1 else 0)
      = (if dims.head? = some _dims._step_dim then 1 else 0) := by
    rw [hsp]; split_ifs <;> simp_all
  have hadd : st.num_vec_dims + (if st.step_posn = 1 then 1 else 0) ≤ dims.length := by
    rw [hif]; exact hle
  have hinner := checkDims_inner _dims name dims st hc
  have hfold : do_fold _dims st = true →
      1 ≤ st.num_vec_dims ∧ st.num_vec_dims = _dims._vec_fold_pts.getNumDims := by
    intro h
    have := (do_fold_iff _dims st).mp h
    rw [IdxTuple.getNumDims_eq]
    exact this
  refine ⟨hstep01, ?_, hadd, by omega, ?_, ?_, ?_, ?_⟩
  · rcases hinner with ⟨hp, _⟩ | ⟨_, _, j, hj, hp⟩
    · omega
    · have hlt : j < dims.length := by
        by_contra hge
        rw [List.getElem?_eq_none (by omega)] at hj
        cases hj
      omega
  · intro heq
    rcases hinner with ⟨hp, _⟩ | ⟨_, hne, j, hj, hp⟩
    · omega
    · exfalso
      have hj0 : j = 0 := by omega
      have hs1 : st.step_posn = 1 := by omega
      subst hj0
      rw [hsp] at hs1
      have hhead : dims.head? = some _dims._step_dim := by
        by_contra hh
        rw [if_neg hh] at hs1
        cases hs1
      rw [List.head?_eq_getElem?, hj] at hhead
      exact hne (Option.some.inj hhead)
  · intro hpos
    rcases hinner with ⟨hp, _⟩ | ⟨hn, hne, j, hj, _⟩
    · omega
    · rw [hnum]
      apply List.countP_pos_iff.mpr
      refine ⟨_dims._inner_dim, List.getElem?_mem hj, ?_⟩
      rw [isVecDim_eq]
      simpa using ⟨hn, hne⟩
  · intro h
    obtain ⟨h1, h2⟩ := hfold h
    constructor <;> omega
  · intro h0
    rw [Bool.eq_false_iff]
    intro h
    obtain ⟨h1, _⟩ := hfold h
    omega

/-- C16 at `["t","x","y"]` with step `t`, fold `x, y` and inner `x`. -/
theorem C16_derived_facts_witness :
    ((⟨1, 2, 2, []⟩ : CheckState).step_posn = 0 ∨ (⟨1, 2, 2, []⟩ : CheckState).step_posn = 1) ∧
    (⟨1, 2, 2, []⟩ : CheckState).inner_posn ≤ ["t", "x", "y"].length ∧
    (⟨1, 2, 2, []⟩ : CheckState).num_vec_dims
      + (if (⟨1, 2, 2, []⟩ : CheckState).step_posn = 1 then 1 else 0) ≤ ["t", "x", "y"].length ∧
    (⟨1, 2, 2, []⟩ : CheckState).num_vec_dims
      ≤ ["t", "x", "y"].length - (if (⟨1, 2, 2, []⟩ : CheckState).step_posn = 1 then 1 else 0) ∧
    ((⟨1, 2, 2, []⟩ : CheckState).inner_posn = (⟨1, 2, 2, []⟩ : CheckState).step_posn →
      (⟨1, 2, 2, []⟩ : CheckState).inner_posn = 0 ∧ (⟨1, 2, 2, []⟩ : CheckState).step_posn = 0) ∧
    (0 < (⟨1, 2, 2, []⟩ : CheckState).inner_posn → 1 ≤ (⟨1, 2, 2, []⟩ : CheckState).num_vec_dims) ∧
    (do_fold exampleDims ⟨1, 2, 2, []⟩ = true →
      exampleDims._vec_fold_pts.getNumDims
        + (if (⟨1, 2, 2, []⟩ : CheckState).step_posn = 1 then 1 else 0) ≤ ["t", "x", "y"].length ∧
      1 ≤ exampleDims._vec_fold_pts.getNumDims
        + (if (⟨1, 2, 2, []⟩ : CheckState).step_posn = 1 then 1 else 0)) ∧
    (["t", "x", "y"].length = 0 → do_fold exampleDims ⟨1, 2, 2, []⟩ = false) :=
  C16_derived_facts exampleDims "g" ["t", "x", "y"] ⟨1, 2, 2, []⟩ (by decide)

end yask
